import Mathlib

/-!
Formal model of the indiyummm backend (order lifecycle, payment verification,
auth responses).  Each endpoint handler of the three server variants found in
the repository is embedded as a pure Lean function over an explicit store.

Variant naming:
* suffix `A` — the ESM `server.js` / the CommonJS drop-in fix (both share the
  same store-mutating logic for verify; create differs slightly, so the
  create operations are embedded separately as `createOrderA` (server.js)
  and `createOrderB` (the CommonJS fix);
* suffix `B` (verify) / `C` (create) — the auth-enabled variant, which also
  provides update-status, delete-order and the auth endpoints.

External collaborators (Node's `crypto` HMAC, pbkdf2, the Razorpay client,
wall-clock time, randomness) are passed in as explicit parameters: the code
under test only consumes their results.  Persistence is modelled by the store
value returned by each operation (the handlers write the whole document back
on every mutation).
-/

set_option autoImplicit false

namespace Indiyummm

/-- JS string coercion of a possibly-undefined request field:
`String(undefined)` is the literal string "undefined". -/
def jsString : Option String → String
  | some s => s
  | none => "undefined"

/-- JS `a || b` on a possibly-undefined string `a`: take `a` when it is
present and truthy (non-empty), else `b`. -/
def jsOrStr : Option String → String → String
  | some s, d => if s = "" then d else s
  | none, d => d

/-- Truthiness of an optional numeric request field (`!amount` rejects both a
missing amount and the number 0). -/
def truthyRat : Option Rat → Bool
  | none => false
  | some a => decide (a ≠ 0)

/-- Truthiness of an optional string request field. -/
def truthyStr : Option String → Bool
  | none => false
  | some s => decide (s ≠ "")

/-- JS `Math.round`: round half toward positive infinity. -/
def jsRound (q : Rat) : Int := ⌊q + 1/2⌋

/-- JS `Array.prototype.findIndex` returning the first matching index
together with the matched element (`none` models the -1 result). -/
def jsFindGet {α : Type} (p : α → Bool) : List α → Option (Nat × α)
  | [] => none
  | x :: xs => if p x then some (0, x) else (jsFindGet p xs).map (fun ia => (ia.1 + 1, ia.2))

theorem jsFindGet_none_iff {α : Type} (p : α → Bool) (l : List α) :
    jsFindGet p l = none ↔ ∀ x ∈ l, p x = false := by
  induction l with
  | nil => simp [jsFindGet]
  | cons x xs ih =>
    by_cases hx : p x
    · simp [jsFindGet, hx]
    · simp only [jsFindGet, if_neg hx, Option.map_eq_none', ih, List.mem_cons]
      constructor
      · intro h y hy
        rcases hy with rfl | hy
        · exact Bool.eq_false_iff.mpr hx
        · exact h y hy
      · intro h y hy
        exact h y (Or.inr hy)

theorem jsFindGet_some_spec {α : Type} {p : α → Bool} {l : List α} {i : Nat} {a : α}
    (h : jsFindGet p l = some (i, a)) : l.get? i = some a ∧ p a = true := by
  induction l generalizing i with
  | nil => simp [jsFindGet] at h
  | cons x xs ih =>
    by_cases hx : p x
    · simp only [jsFindGet, if_pos hx, Option.some.injEq, Prod.mk.injEq] at h
      obtain ⟨rfl, rfl⟩ := h
      exact ⟨rfl, hx⟩
    · simp only [jsFindGet, if_neg hx, Option.map_eq_some'] at h
      obtain ⟨⟨j, b⟩, hj, hjb⟩ := h
      obtain ⟨h1, h2⟩ := Prod.mk.injEq _ _ _ _ ▸ hjb
      subst h2
      obtain ⟨hg, hp⟩ := ih hj
      refine ⟨?_, hp⟩
      rw [← h1]
      simpa using hg

theorem jsFindGet_some_first {α : Type} {p : α → Bool} {l : List α} {i : Nat} {a : α}
    (h : jsFindGet p l = some (i, a)) :
    ∀ j b, j < i → l.get? j = some b → p b = false := by
  induction l generalizing i with
  | nil => simp [jsFindGet] at h
  | cons x xs ih =>
    by_cases hx : p x
    · simp only [jsFindGet, if_pos hx, Option.some.injEq, Prod.mk.injEq] at h
      obtain ⟨rfl, rfl⟩ := h
      intro j b hj
      omega
    · simp only [jsFindGet, if_neg hx, Option.map_eq_some'] at h
      obtain ⟨⟨j0, b0⟩, hj0, hjb⟩ := h
      obtain ⟨h1, h2⟩ := Prod.mk.injEq _ _ _ _ ▸ hjb
      subst h2
      intro j b hj hget
      cases j with
      | zero =>
        simp only [List.get?_cons_zero, Option.some.injEq] at hget
        subst hget
        exact Bool.eq_false_iff.mpr hx
      | succ j' =>
        simp only [List.get?_cons_succ] at hget
        exact ih hj0 j' b (by omega) hget

theorem jsFindGet_set {α : Type} {p : α → Bool} {l : List α} {i : Nat} {a : α}
    (h : jsFindGet p l = some (i, a)) (a' : α) (ha' : p a' = true) :
    jsFindGet p (l.set i a') = some (i, a') := by
  induction l generalizing i with
  | nil => simp [jsFindGet] at h
  | cons x xs ih =>
    by_cases hx : p x
    · simp only [jsFindGet, if_pos hx, Option.some.injEq, Prod.mk.injEq] at h
      obtain ⟨rfl, rfl⟩ := h
      simp [jsFindGet, ha']
    · simp only [jsFindGet, if_neg hx, Option.map_eq_some'] at h
      obtain ⟨⟨j0, b0⟩, hj0, hjb⟩ := h
      obtain ⟨h1, h2⟩ := Prod.mk.injEq _ _ _ _ ▸ hjb
      subst h2
      cases i with
      | zero => omega
      | succ i' =>
        have hi' : j0 = i' := by omega
        subst hi'
        simp only [List.set_cons_succ, jsFindGet, if_neg hx]
        rw [ih hj0]
        rfl

theorem get?_set_self {α : Type} {l : List α} {i : Nat} {b : α}
    (h : l.get? i = some b) (a : α) : (l.set i a).get? i = some a := by
  induction l generalizing i with
  | nil => simp at h
  | cons x xs ih =>
    cases i with
    | zero => simp
    | succ i' =>
      simp only [List.get?_cons_succ] at h
      simpa using ih h

theorem set_of_get?_eq {α : Type} {l : List α} {i : Nat} {a : α}
    (h : l.get? i = some a) : l.set i a = l := by
  induction l generalizing i with
  | nil => simp
  | cons x xs ih =>
    cases i with
    | zero =>
      simp only [List.get?_cons_zero, Option.some.injEq] at h
      simp [h]
    | succ i' =>
      simp only [List.get?_cons_succ] at h
      simp [ih h]

theorem mem_set_cases {α : Type} {l : List α} {i : Nat} {a b : α}
    (h : b ∈ l.set i a) : b = a ∨ b ∈ l := by
  induction l generalizing i with
  | nil => simp at h
  | cons x xs ih =>
    cases i with
    | zero =>
      simp only [List.set_cons_zero, List.mem_cons] at h
      rcases h with rfl | h
      · exact Or.inl rfl
      · exact Or.inr (List.mem_cons_of_mem _ h)
    | succ i' =>
      simp only [List.set_cons_succ, List.mem_cons] at h
      rcases h with rfl | h
      · exact Or.inr (List.mem_cons_self _ _)
      · rcases ih h with h' | h'
        · exact Or.inl h'
        · exact Or.inr (List.mem_cons_of_mem _ h')

theorem map_set {α β : Type} (f : α → β) (l : List α) (i : Nat) (a : α) :
    (l.set i a).map f = (l.map f).set i (f a) := by
  induction l generalizing i with
  | nil => simp
  | cons x xs ih =>
    cases i with
    | zero => simp
    | succ i' => simp [ih]

theorem set_set_same {α : Type} (l : List α) (i : Nat) (a b : α) :
    (l.set i a).set i b = l.set i b := by
  induction l generalizing i with
  | nil => simp
  | cons x xs ih =>
    cases i with
    | zero => simp
    | succ i' => simp [ih]

/-- A review record (sibling collection, not claim-relevant but part of the
persisted document). -/
structure Review where
  id : Nat
  productName : String
  name : String
  rating : Rat
  text : String
deriving DecidableEq

/-- A cart line item as synthesized by the auth-enabled variant from a
quick-view `selectedProduct`. -/
structure CartItem where
  name : String
  img : String
  pricePerKg : Rat
  qty : Rat
  packLabel : String
  calculatedPrice : Int
deriving DecidableEq

/-- Free-form customer contact info. -/
structure Customer where
  name : String
  phone : String
  email : String
deriving DecidableEq

/-- A quick-view product as sent by the frontend. -/
structure SelectedProduct where
  name : String
  img : Option String
  price : Rat
  packKg : Rat
  packLabel : String
deriving DecidableEq

/-- An order record as stored in the `orders` collection of `db.json`.
Fields written only by later lifecycle steps are `Option`s (`none` models an
absent JSON key). -/
structure Order where
  id : Nat
  receipt : String
  razorpay_order_id : String
  amount : Rat
  amount_paise : Int
  currency : String
  cart : Option (List CartItem)
  customer : Option Customer
  status : String
  razorpay_payment_id : Option String
  razorpay_signature : Option String
  paid_at : Option Nat
  created_at : Nat
  eta : Option String
deriving DecidableEq

/-- A user record as stored by `/register` (auth-enabled variant). -/
structure User where
  id : Nat
  name : String
  email : String
  salt : String
  password : String
  token : String
  created_at : Nat
deriving DecidableEq

/-- The whole persisted JSON document. -/
structure DB where
  reviews : List Review
  orders : List Order
  users : List User
deriving DecidableEq

/-- The remote order object returned by the Razorpay client (or the locally
synthesized stand-in). -/
structure RzpOrder where
  id : String
  amount : Int
  currency : String
  receipt : Option String
deriving DecidableEq

/-- The signature comparison exactly as in the source: JS strict string
equality (`generated === razorpay_signature`). -/
def sigEq (generated supplied : String) : Bool := generated == supplied

/-- Lookup predicate of the server.js / CommonJS-fix verify handler:
`o.razorpay_order_id === razorpay_order_id || String(o.receipt) === String(receipt)`. -/
def vMatchA (oid : String) (receipt : Option String) (o : Order) : Bool :=
  o.razorpay_order_id == oid || o.receipt == jsString receipt

/-- Lookup predicate of the auth-enabled verify handler:
`o.razorpay_order_id === razorpay_order_id || o.receipt === receipt` (strict,
so an undefined receipt never matches). -/
def vMatchB (oid : String) (receipt : Option String) (o : Order) : Bool :=
  o.razorpay_order_id == oid || some o.receipt == receipt

/-- Response of the server.js / CommonJS-fix verify handler. -/
structure VerifyResponse where
  httpStatus : Nat
  verified : Bool
  order_index : Option Int
  order : Option Order
  reason : Option String
deriving DecidableEq

/-- `/verify-payment` of server.js and of the CommonJS fix (identical store
logic; the CommonJS fix additionally guards on a missing secret, which
server.js can never hit since the error branches return before any store
access either way).  `hmac secret msg` stands for Node's
`crypto.createHmac("sha256", secret).update(msg).digest("hex")`. -/
def verifyPaymentA (hmac : String → String → String) (secret : String) (now : Nat)
    (db : DB) (oid pid sig : String) (receipt : Option String) :
    VerifyResponse × DB :=
  if oid = "" ∨ pid = "" ∨ sig = "" then
    ({ httpStatus := 400, verified := false, order_index := none, order := none,
       reason := some "missing_fields" }, db)
  else if secret = "" then
    ({ httpStatus := 500, verified := false, order_index := none, order := none,
       reason := some "server_secret_missing" }, db)
  else
    let generated := hmac secret (oid ++ "|" ++ pid)
    let verified := sigEq generated sig
    match jsFindGet (vMatchA oid receipt) db.orders with
    | none =>
      ({ httpStatus := 200, verified := verified, order_index := some (-1), order := none,
         reason := none }, db)
    | some (i, o) =>
      if verified then
        let o' := { o with status := "paid", razorpay_payment_id := some pid,
                           razorpay_signature := some sig, paid_at := some now }
        ({ httpStatus := 200, verified := verified, order_index := some (Int.ofNat i),
           order := some o', reason := none },
         { db with orders := db.orders.set i o' })
      else
        let o' := { o with status := "payment_failed" }
        ({ httpStatus := 200, verified := verified, order_index := some (Int.ofNat i),
           order := some o', reason := none },
         { db with orders := db.orders.set i o' })

/-- Response of the auth-enabled verify handler (it returns only the
verification boolean). -/
structure VerifyBResponse where
  httpStatus : Nat
  verified : Bool
deriving DecidableEq

/-- `/verify-payment` of the auth-enabled variant: no field/secret guards; on
a match it sets the status from the verification outcome and writes
`razorpay_payment_id` unconditionally (and never writes the signature). -/
def verifyPaymentB (hmac : String → String → String) (secret : String)
    (db : DB) (oid pid sig : String) (receipt : Option String) :
    VerifyBResponse × DB :=
  let generated := hmac secret (oid ++ "|" ++ pid)
  let verified := sigEq generated sig
  match jsFindGet (vMatchB oid receipt) db.orders with
  | none => ({ httpStatus := 200, verified := verified }, db)
  | some (i, o) =>
    let o' := { o with status := if verified then "paid" else "payment_failed",
                       razorpay_payment_id := some pid }
    ({ httpStatus := 200, verified := verified }, { db with orders := db.orders.set i o' })

/-- Response of the create-order handlers. -/
structure CreateResponse where
  httpStatus : Nat
  success : Bool
  order_id : Option String
  amount : Option Int
  currency : Option String
  receipt : Option String
  key_id : Option String
  error : Option String
deriving DecidableEq

/-- A failed create-order response (500 with an error string). -/
def createFail (e : String) : CreateResponse :=
  { httpStatus := 500, success := false, order_id := none, amount := none,
    currency := none, receipt := none, key_id := none, error := some e }

/-- A rejected create-order request (400 with an error string). -/
def createReject (e : String) : CreateResponse :=
  { httpStatus := 400, success := false, order_id := none, amount := none,
    currency := none, receipt := none, key_id := none, error := some e }

/-- `/create-order` of the ESM server.js: requires `amount` and `receipt`,
always goes to the Razorpay client (`gw` is the result of
`razorpay.orders.create`; `Except.error` models a thrown/rejected call, which
lands in the catch block before any store access), stores the locally
computed paise amount, and echoes it in the response. -/
def createOrderA (keyId : String) (gw : Except String RzpOrder) (now : Nat) (db : DB)
    (amount : Option Rat) (currency : String) (receipt : Option String)
    (cart : Option (List CartItem)) (customer : Option Customer) :
    CreateResponse × DB :=
  if truthyRat amount = false ∨ truthyStr receipt = false then
    (createReject "Missing amount or receipt", db)
  else
    let a := amount.getD 0
    let r := receipt.getD ""
    let amountPaise := jsRound (a * 100)
    match gw with
    | .error e => (createFail ("Failed to create order: " ++ e), db)
    | .ok order =>
      let rcpt := jsOrStr order.receipt r
      let newOrder : Order :=
        { id := now, receipt := rcpt, razorpay_order_id := order.id, amount := a,
          amount_paise := amountPaise, currency := currency, cart := cart,
          customer := customer, status := "created", razorpay_payment_id := none,
          razorpay_signature := none, paid_at := none, created_at := now, eta := none }
      ({ httpStatus := 200, success := true, order_id := some order.id,
         amount := some amountPaise, currency := some currency, receipt := some rcpt,
         key_id := some keyId, error := none },
       { db with orders := db.orders ++ [newOrder] })

/-- `/create-order` of the CommonJS fix: requires only `amount`, rejects with
500 when the Razorpay client is not configured, defaults the receipt to
rcpt_<timestamp>, and stores the gateway's canonical amount and currency. -/
def createOrderB (keyId : String) (configured : Bool) (gw : Except String RzpOrder)
    (now : Nat) (db : DB) (amount : Option Rat) (currency : String)
    (receipt : Option String) (cart : Option (List CartItem))
    (customer : Option Customer) : CreateResponse × DB :=
  if truthyRat amount = false then
    (createReject "Missing amount", db)
  else if configured = false then
    (createFail "Razorpay not configured", db)
  else
    let a := amount.getD 0
    let amountPaise := jsRound (a * 100)
    let finalReceipt := jsOrStr receipt ("rcpt_" ++ toString now)
    match gw with
    | .error e => (createFail ("Failed to create order: " ++ e), db)
    | .ok order =>
      let rcpt := jsOrStr order.receipt finalReceipt
      let newOrder : Order :=
        { id := now, receipt := rcpt, razorpay_order_id := order.id, amount := a,
          amount_paise := order.amount, currency := order.currency, cart := cart,
          customer := customer, status := "created", razorpay_payment_id := none,
          razorpay_signature := none, paid_at := none, created_at := now, eta := none }
      ({ httpStatus := 200, success := true, order_id := some order.id,
         amount := some order.amount, currency := some order.currency,
         receipt := some rcpt, key_id := some keyId, error := none },
       { db with orders := db.orders ++ [newOrder] })

/-- The cart finally stored by the auth-enabled create handler: the supplied
cart when non-empty, else a single synthesized item from `selectedProduct`
when one is given, else the empty cart. -/
def finalCartOf (cart : Option (List CartItem)) (sp : Option SelectedProduct) :
    List CartItem :=
  let c := match cart with
    | some c => if c.length > 0 then c else []
    | none => []
  if c.length = 0 then
    match sp with
    | some p =>
      [{ name := p.name, img := jsOrStr p.img "", pricePerKg := p.price, qty := p.packKg,
         packLabel := p.packLabel, calculatedPrice := jsRound (p.price * p.packKg) }]
    | none => c
  else c

/-- `/create-order` of the auth-enabled variant: when `cod` is falsy AND the
Razorpay client is configured it calls the gateway (a thrown call lands in
the catch block: 500, nothing persisted); otherwise — including the
misconfigured-gateway case — it synthesizes a local cod_<timestamp> order
without calling the gateway. -/
def createOrderC (keyId : String) (configured : Bool) (gw : Except String RzpOrder)
    (cod : Bool) (now : Nat) (db : DB) (amount : Option Rat) (currency : String)
    (receipt : Option String) (cart : Option (List CartItem))
    (sp : Option SelectedProduct) (customer : Option Customer) :
    CreateResponse × DB :=
  if truthyRat amount = false then
    (createReject "Missing amount", db)
  else
    let a := amount.getD 0
    let amountPaise := jsRound (a * 100)
    let finalReceipt := jsOrStr receipt ("rcpt_" ++ toString now)
    let rzpOrder : Except String RzpOrder :=
      if cod = false ∧ configured = true then gw
      else .ok { id := "cod_" ++ toString now, amount := amountPaise,
                 currency := currency, receipt := none }
    match rzpOrder with
    | .error _ => (createFail "Failed to create order", db)
    | .ok order =>
      let newOrder : Order :=
        { id := now, receipt := finalReceipt, razorpay_order_id := order.id, amount := a,
          amount_paise := order.amount, currency := order.currency,
          cart := some (finalCartOf cart sp), customer := customer, status := "created",
          razorpay_payment_id := none, razorpay_signature := none, paid_at := none,
          created_at := now, eta := none }
      ({ httpStatus := 200, success := true, order_id := some order.id,
         amount := some order.amount, currency := some order.currency,
         receipt := some finalReceipt, key_id := some keyId, error := none },
       { db with orders := db.orders ++ [newOrder] })

/-- Lookup predicate shared by update-status and delete-order:
`o.razorpay_order_id === id || o.receipt === id`. -/
def keyMatch (key : String) (o : Order) : Bool :=
  o.razorpay_order_id == key || o.receipt == key

/-- Response of the update-status handler. -/
structure UpdateResponse where
  httpStatus : Nat
  success : Bool
  order : Option Order
  error : Option String
deriving DecidableEq

/-- `PATCH /update-status/:id` (auth-enabled variant): find by gateway order
id or receipt; 404 when absent; apply whichever of status/eta is truthy. -/
def updateStatus (db : DB) (key : String) (status eta : Option String) :
    UpdateResponse × DB :=
  match jsFindGet (keyMatch key) db.orders with
  | none => ({ httpStatus := 404, success := false, order := none,
               error := some "Not found" }, db)
  | some (i, o) =>
    let o1 := if truthyStr status then { o with status := status.getD "" } else o
    let o2 := if truthyStr eta then { o1 with eta := eta } else o1
    ({ httpStatus := 200, success := true, order := some o2, error := none },
     { db with orders := db.orders.set i o2 })

/-- Response of the delete-order handler. -/
structure DeleteResponse where
  httpStatus : Nat
  success : Bool
deriving DecidableEq

/-- `DELETE /delete-order/:id` (auth-enabled variant): keep exactly the
orders matching neither key, always report success. -/
def deleteOrder (db : DB) (key : String) : DeleteResponse × DB :=
  ({ httpStatus := 200, success := true },
   { db with orders := db.orders.filter (fun o => !(o.razorpay_order_id == key) && !(o.receipt == key)) })

/-- The user object actually serialized in auth responses: the stored record
with the `password` and `salt` keys removed by rest-destructuring. -/
structure SafeUser where
  id : Nat
  name : String
  email : String
  token : String
  created_at : Nat
deriving DecidableEq

/-- The rest-destructuring `const (pass, salt, ...userSafe) = user`. -/
def userSafe (u : User) : SafeUser :=
  { id := u.id, name := u.name, email := u.email, token := u.token,
    created_at := u.created_at }

/-- Response of the auth endpoints. -/
structure AuthResponse where
  httpStatus : Nat
  success : Bool
  user : Option SafeUser
  token : Option String
  error : Option String
deriving DecidableEq

/-- A failed auth response. -/
def authFail (code : Nat) (e : String) : AuthResponse :=
  { httpStatus := code, success := false, user := none, token := none, error := some e }

/-- `POST /register` (auth-enabled variant).  `hashPw password salt` stands
for pbkdf2; `salt` and `token` are the freshly drawn random values. -/
def register (hashPw : String → String → String) (salt token : String) (now : Nat)
    (db : DB) (name email password : String) : AuthResponse × DB :=
  if name = "" ∨ email = "" ∨ password = "" then
    (authFail 400 "Missing fields", db)
  else if (db.users.find? (fun u => u.email.toLower == email.toLower)).isSome then
    (authFail 400 "User already exists", db)
  else
    let user : User :=
      { id := now, name := name, email := email.toLower, salt := salt,
        password := hashPw password salt, token := token, created_at := now }
    ({ httpStatus := 200, success := true, user := some (userSafe user),
       token := some token, error := none },
     { db with users := db.users ++ [user] })

/-- `POST /login` (auth-enabled variant).  `verifyPassword` is
`timingSafeEqual` of the recomputed and stored pbkdf2 hex digests, i.e.
equality of the two strings; `newToken` is the freshly drawn rotated token. -/
def login (hashPw : String → String → String) (newToken : String) (db : DB)
    (email password : String) : AuthResponse × DB :=
  if email = "" ∨ password = "" then
    (authFail 400 "Missing fields", db)
  else
    match jsFindGet (fun u => u.email.toLower == email.toLower) db.users with
    | none => (authFail 400 "Invalid credentials", db)
    | some (i, u) =>
      if hashPw password u.salt = u.password then
        let u' := { u with token := newToken }
        ({ httpStatus := 200, success := true, user := some (userSafe u'),
           token := some newToken, error := none },
         { db with users := db.users.set i u' })
      else (authFail 400 "Invalid credentials", db)

/-- `GET /me` (auth-enabled variant), taking the already-extracted bearer
token (header parsing is outside the embedded core).  Read-only. -/
def me (db : DB) (token : String) : AuthResponse :=
  if token = "" then authFail 401 "missing_token"
  else
    match db.users.find? (fun u => u.token == token) with
    | none => authFail 401 "invalid_token"
    | some u =>
      { httpStatus := 200, success := true, user := some (userSafe u),
        token := none, error := none }

/-- Number of exact-position character differences between two char lists
(surplus length counts as differing). -/
def diffCount : List Char → List Char → Nat
  | a :: as, b :: bs => (if a = b then 0 else 1) + diffCount as bs
  | as, [] => as.length
  | [], bs => bs.length

/-- Two strings of equal length differing in exactly one character. -/
def oneCharDiff (a b : String) : Prop :=
  a.data.length = b.data.length ∧ diffCount a.data b.data = 1

theorem diffCount_self (l : List Char) : diffCount l l = 0 := by
  induction l with
  | nil => rfl
  | cons a as ih => simp [diffCount, ih]

theorem ne_of_oneCharDiff {a b : String} (h : oneCharDiff a b) : a ≠ b := by
  intro hab
  subst hab
  have h2 : diffCount a.data a.data = 1 := h.2
  rw [diffCount_self] at h2
  exact absurd h2 (by simp)

/-- Short-circuit character-by-character equality scan — the standard
left-to-right evaluation of string equality — returning the boolean result
together with the number of character comparisons performed before exiting. -/
def scanEq : List Char → List Char → Bool × Nat
  | a :: as, b :: bs =>
    if a = b then ((scanEq as bs).1, (scanEq as bs).2 + 1) else (false, 1)
  | [], [] => (true, 0)
  | _, _ => (false, 0)

/-- Length of the longest common prefix of two char lists. -/
def lcpLen : List Char → List Char → Nat
  | a :: as, b :: bs => if a = b then lcpLen as bs + 1 else 0
  | _, _ => 0

theorem scanEq_fst (as bs : List Char) : (scanEq as bs).1 = decide (as = bs) := by
  induction as generalizing bs with
  | nil => cases bs <;> simp [scanEq]
  | cons a as ih =>
    cases bs with
    | nil => simp [scanEq]
    | cons b bs =>
      by_cases hab : a = b
      · subst hab
        simp [scanEq, ih]
      · simp [scanEq, hab]

theorem sigEq_eq_scanEq (g s : String) : sigEq g s = (scanEq g.data s.data).1 := by
  rw [scanEq_fst]
  unfold sigEq
  cases g with
  | mk gd =>
    cases s with
    | mk sd =>
      by_cases h : gd = sd
      · subst h
        simp
      · simp [h]
        intro he
        exact absurd (congrArg String.data he) h

theorem scanEq_snd (as bs : List Char) :
    (scanEq as bs).2 = min (lcpLen as bs + 1) (min as.length bs.length) := by
  induction as generalizing bs with
  | nil => cases bs <;> simp [scanEq, lcpLen]
  | cons a as ih =>
    cases bs with
    | nil => simp [scanEq, lcpLen]
    | cons b bs =>
      by_cases hab : a = b
      · subst hab
        have e1 : (scanEq (a :: as) (a :: bs)).2 = (scanEq as bs).2 + 1 := by
          simp [scanEq]
        have e2 : lcpLen (a :: as) (a :: bs) = lcpLen as bs + 1 := by simp [lcpLen]
        rw [e1, e2, ih]
        simp only [List.length_cons]
        omega
      · have e1 : (scanEq (a :: as) (b :: bs)).2 = 1 := by simp [scanEq, hab]
        have e2 : lcpLen (a :: as) (b :: bs) = 0 := by simp [lcpLen, hab]
        rw [e1, e2]
        simp only [List.length_cons]
        omega

/-- A concrete stored order used as fixture in closed instances. -/
def ord0 : Order :=
  { id := 1, receipt := "r1", razorpay_order_id := "order_abc", amount := 5,
    amount_paise := 500, currency := "INR", cart := none, customer := none,
    status := "created", razorpay_payment_id := none, razorpay_signature := none,
    paid_at := none, created_at := 1, eta := none }

/-- A concrete store holding just `ord0`. -/
def db0 : DB := { reviews := [], orders := [ord0], users := [] }

/-- A concrete stand-in for the HMAC collaborator, injective enough for the
fixtures. -/
def hmac0 : String → String → String := fun _ m => "sig." ++ m

/-- A concrete stored user used as fixture in closed instances. -/
def user0 : User :=
  { id := 3, name := "Asha", email := "asha@example.com", salt := "s0",
    password := "h0", token := "tok", created_at := 3 }

/-- A concrete store holding just `user0`. -/
def db1 : DB := { reviews := [], orders := [], users := [user0] }

/-- C9: DeleteOrder removes exactly the orders matching the key on either
gatewayOrderId or receipt, reports success unconditionally, and a subsequent
UpdateStatus on the same key finds nothing: it answers 404 and leaves the
store untouched. -/
theorem C9_delete_then_update (db : DB) (key : String) (status eta : Option String) :
    (deleteOrder db key).1.success = true ∧
    (∀ o ∈ (deleteOrder db key).2.orders, o.razorpay_order_id ≠ key ∧ o.receipt ≠ key) ∧
    (∀ o ∈ db.orders, o.razorpay_order_id ≠ key → o.receipt ≠ key →
      o ∈ (deleteOrder db key).2.orders) ∧
    (updateStatus (deleteOrder db key).2 key status eta).1.httpStatus = 404 ∧
    (updateStatus (deleteOrder db key).2 key status eta).1.success = false ∧
    (updateStatus (deleteOrder db key).2 key status eta).2 = (deleteOrder db key).2 := by
  have hmem : ∀ o ∈ (deleteOrder db key).2.orders,
      o.razorpay_order_id ≠ key ∧ o.receipt ≠ key := by
    intro o ho
    simp only [deleteOrder, List.mem_filter, Bool.and_eq_true, Bool.not_eq_true',
      beq_eq_false_iff_ne] at ho
    exact ho.2
  have hnone : jsFindGet (keyMatch key) (deleteOrder db key).2.orders = none := by
    rw [jsFindGet_none_iff]
    intro o ho
    obtain ⟨h1, h2⟩ := hmem o ho
    simp [keyMatch, h1, h2]
  refine ⟨rfl, hmem, ?_, ?_, ?_, ?_⟩
  · intro o ho h1 h2
    simp only [deleteOrder, List.mem_filter, Bool.and_eq_true, Bool.not_eq_true',
      beq_eq_false_iff_ne]
    exact ⟨ho, h1, h2⟩
  · simp [updateStatus, hnone]
  · simp [updateStatus, hnone]
  · simp [updateStatus, hnone]

/-- C7: a cash-on-delivery CreateOrder never consults the gateway client (its
outcome is independent of the client's configuration and response), appends a
new order with a synthesized cod_timestamp gateway id and status created to
the store, and reports success. -/
theorem C7_cod_order (keyId : String) (cfg cfg' : Bool) (gw gw' : Except String RzpOrder)
    (now : Nat) (db : DB) (amount : Option Rat) (a : Rat) (cur : String)
    (receipt : Option String) (cart : Option (List CartItem))
    (sp : Option SelectedProduct) (cust : Option Customer)
    (ha : amount = some a) (ha0 : a ≠ 0) :
    createOrderC keyId cfg gw true now db amount cur receipt cart sp cust
      = createOrderC keyId cfg' gw' true now db amount cur receipt cart sp cust ∧
    (createOrderC keyId cfg gw true now db amount cur receipt cart sp cust).1.success
      = true ∧
    (createOrderC keyId cfg gw true now db amount cur receipt cart sp cust).1.httpStatus
      = 200 ∧
    (createOrderC keyId cfg gw true now db amount cur receipt cart sp cust).1.order_id
      = some ("cod_" ++ toString now) ∧
    ∃ newOrd,
      (createOrderC keyId cfg gw true now db amount cur receipt cart sp cust).2.orders
        = db.orders ++ [newOrd] ∧
      newOrd.razorpay_order_id = "cod_" ++ toString now ∧
      newOrd.status = "created" := by
  subst ha
  have ht : truthyRat (some a) = true := by simp [truthyRat, ha0]
  refine ⟨?_, ?_, ?_, ?_, ?_⟩ <;>
    simp [createOrderC, ht]

/-- Witness for C7 at concrete inputs. -/
theorem C7_cod_order_witness :
    (createOrderC "k" true (Except.error "down") true 7 db0 (some 5) "INR"
        none none none none).1.success = true ∧
    (createOrderC "k" true (Except.error "down") true 7 db0 (some 5) "INR"
        none none none none).1.order_id = some ("cod_" ++ toString 7) := by
  have h := C7_cod_order "k" true false (Except.error "down") (Except.ok
      { id := "x", amount := 0, currency := "INR", receipt := none }) 7 db0 (some 5) 5
      "INR" none none none none rfl (by decide)
  exact ⟨h.2.1, h.2.2.2.1⟩

/-- C8: the stored minor-unit amount is round(amount * 100): server.js stores
the locally computed paise value unconditionally; the auth-enabled variant
stores it on the cash-on-delivery path, and on the gateway path it stores the
gateway's canonical amount, which is round(amount * 100) whenever the gateway
echoes the requested paise amount. -/
theorem C8_amount_minor (keyId : String) (now : Nat) (db : DB) (cur : String)
    (cart : Option (List CartItem)) (cust : Option Customer) (a : Rat) (r : String)
    (rz : RzpOrder) (receipt : Option String) (sp : Option SelectedProduct)
    (ha : a ≠ 0) (hr : r ≠ "") (hecho : rz.amount = jsRound (a * 100)) :
    (∃ newOrd,
      (createOrderA keyId (Except.ok rz) now db (some a) cur (some r) cart cust).2.orders
        = db.orders ++ [newOrd] ∧
      newOrd.amount = a ∧ newOrd.amount_paise = jsRound (a * 100)) ∧
    (∃ newOrd,
      (createOrderC keyId true (Except.ok rz) true now db (some a) cur receipt
          cart sp cust).2.orders
        = db.orders ++ [newOrd] ∧
      newOrd.amount = a ∧ newOrd.amount_paise = jsRound (a * 100)) ∧
    (∃ newOrd,
      (createOrderC keyId true (Except.ok rz) false now db (some a) cur receipt
          cart sp cust).2.orders
        = db.orders ++ [newOrd] ∧
      newOrd.amount = a ∧ newOrd.amount_paise = jsRound (a * 100)) := by
  have ht : truthyRat (some a) = true := by simp [truthyRat, ha]
  have htr : truthyStr (some r) = true := by simp [truthyStr, hr]
  refine ⟨?_, ?_, ?_⟩ <;>
    simp [createOrderA, createOrderC, ht, htr, hecho]

/-- A concrete gateway response echoing the requested paise amount. -/
def rz0 : RzpOrder :=
  { id := "order_abc", amount := jsRound ((5:Rat) * 100), currency := "INR",
    receipt := none }

/-- Witness for C8 at concrete inputs. -/
theorem C8_amount_minor_witness :
    ∃ newOrd,
      (createOrderA "k" (Except.ok rz0) 7 db0 (some 5) "INR" (some "r9")
          none none).2.orders
        = db0.orders ++ [newOrd] ∧
      newOrd.amount = 5 ∧ newOrd.amount_paise = jsRound ((5:Rat) * 100) :=
  (C8_amount_minor "k" 7 db0 "INR" none none 5 "r9" rz0
    none none (by decide) (by decide) rfl).1

/-- Witness for C9 at concrete inputs. -/
theorem C9_delete_then_update_witness :
    (deleteOrder db0 "order_abc").1.success = true ∧
    (updateStatus (deleteOrder db0 "order_abc").2 "order_abc" none none).1.httpStatus
      = 404 :=
  ⟨(C9_delete_then_update db0 "order_abc" none none).1,
   (C9_delete_then_update db0 "order_abc" none none).2.2.2.1⟩

/-- C5 counterexample: in the auth-enabled variant, a misconfigured gateway
client (razorpay = null) on a non-cod call does NOT produce a creation
failure: the handler silently falls back to a synthesized cod_timestamp id,
reports success, and appends the order. -/
theorem C5_counterexample :
    (createOrderC "k" false (Except.error "gateway down") false 7 db0 (some 5) "INR"
        none none none none).1.success = true ∧
    (createOrderC "k" false (Except.error "gateway down") false 7 db0 (some 5) "INR"
        none none none none).1.httpStatus = 200 ∧
    ((createOrderC "k" false (Except.error "gateway down") false 7 db0 (some 5) "INR"
        none none none none).2.orders.map (fun o => o.razorpay_order_id))
      = ["order_abc", "cod_7"] := by
  refine ⟨rfl, rfl, ?_⟩
  simp only [createOrderC, truthyRat, db0, ord0]
  decide

/-- C5 amended: a missing amount is rejected before any store access or
gateway call in every variant (and server.js also rejects a missing receipt
this way); an unconfigured gateway client makes the CommonJS-fix variant fail
without persisting, while the auth-enabled variant instead creates a local
cod_timestamp order; a failing gateway call produces a 500 creation failure
with the store unchanged in all variants. -/
theorem C5_amended (keyId : String) (now : Nat) (cur : String)
    (receipt : Option String) (cart : Option (List CartItem))
    (sp : Option SelectedProduct) (cust : Option Customer) :
    (∀ (db : DB) (gw : Except String RzpOrder) (cfg cod : Bool) (amount : Option Rat),
      truthyRat amount = false →
      createOrderA keyId gw now db amount cur receipt cart cust
        = (createReject "Missing amount or receipt", db) ∧
      createOrderB keyId cfg gw now db amount cur receipt cart cust
        = (createReject "Missing amount", db) ∧
      createOrderC keyId cfg gw cod now db amount cur receipt cart sp cust
        = (createReject "Missing amount", db)) ∧
    (∀ (db : DB) (gw : Except String RzpOrder) (amount : Option Rat),
      truthyRat amount = true →
      createOrderB keyId false gw now db amount cur receipt cart cust
        = (createFail "Razorpay not configured", db)) ∧
    (∀ (db : DB) (e : String) (amount : Option Rat),
      truthyRat amount = true →
      (createOrderB keyId true (Except.error e) now db amount cur receipt cart cust).2
        = db ∧
      (createOrderB keyId true (Except.error e) now db amount cur receipt cart
          cust).1.httpStatus = 500 ∧
      (createOrderB keyId true (Except.error e) now db amount cur receipt cart
          cust).1.success = false ∧
      (createOrderC keyId true (Except.error e) false now db amount cur receipt cart
          sp cust).2 = db ∧
      (createOrderC keyId true (Except.error e) false now db amount cur receipt cart
          sp cust).1.httpStatus = 500 ∧
      (createOrderC keyId true (Except.error e) false now db amount cur receipt cart
          sp cust).1.success = false) := by
  refine ⟨?_, ?_, ?_⟩
  · intro db gw cfg cod amount hfalse
    refine ⟨?_, ?_, ?_⟩ <;> simp [createOrderA, createOrderB, createOrderC, hfalse]
  · intro db gw amount htrue
    simp [createOrderB, htrue]
  · intro db e amount htrue
    refine ⟨?_, ?_, ?_, ?_, ?_, ?_⟩ <;>
      simp [createOrderB, createOrderC, htrue, createFail]

/-- Witness for C5 at concrete inputs. -/
theorem C5_amended_witness :
    createOrderB "k" true (Except.error "down") 7 db0 none "INR" none none none
      = (createReject "Missing amount", db0) ∧
    createOrderB "k" false (Except.ok rz0) 7 db0 (some 5) "INR" none none none
      = (createFail "Razorpay not configured", db0) :=
  ⟨((C5_amended "k" 7 "INR" none none none none).1 db0 (Except.error "down") true false
      none rfl).2.1,
   (C5_amended "k" 7 "INR" none none none none).2.1 db0 (Except.ok rz0) (some 5)
      (by decide)⟩

/-- C6 counterexample: the signature comparison of the source is JS strict
string equality, and under its standard short-circuit left-to-right
evaluation two equal-length wrong signatures take different numbers of
character comparisons — one when the first character is already wrong, three
when only the last differs — so the comparison is not constant-time. -/
theorem C6_counterexample :
    sigEq (String.mk ['a', 'b', 'c']) (String.mk ['x', 'b', 'c']) = false ∧
    sigEq (String.mk ['a', 'b', 'c']) (String.mk ['a', 'b', 'x']) = false ∧
    (String.mk ['x', 'b', 'c']).data.length = (String.mk ['a', 'b', 'x']).data.length ∧
    (scanEq (String.mk ['a', 'b', 'c']).data (String.mk ['x', 'b', 'c']).data).2 = 1 ∧
    (scanEq (String.mk ['a', 'b', 'c']).data (String.mk ['a', 'b', 'x']).data).2 = 3 := by
  decide

/-- C6 amended: the signature comparison in VerifyPayment is plain
short-circuiting string equality, not a constant-time byte comparison: the
comparison used by both verify handlers is computed by the short-circuit scan
whose comparison count is min(lcp + 1, min of the lengths), i.e. it grows
with the length of the correct prefix of the supplied signature. -/
theorem C6_amended :
    (∀ g s : String, sigEq g s = (scanEq g.data s.data).1) ∧
    (∀ as bs : List Char,
      (scanEq as bs).2 = min (lcpLen as bs + 1) (min as.length bs.length)) ∧
    (scanEq (String.mk ['a', 'b', 'c']).data (String.mk ['x', 'b', 'c']).data).2
      ≠ (scanEq (String.mk ['a', 'b', 'c']).data (String.mk ['a', 'b', 'x']).data).2 :=
  ⟨sigEq_eq_scanEq, scanEq_snd, by decide⟩

/-- C10: every user object returned by register, login or me is the safe
projection of a user record — the rest-destructured object without the
password and salt keys — and that projection is invariant under arbitrary
changes to the stored password hash and salt, for every request and store. -/
theorem C10_no_credential_leak :
    (∀ (u : User) (p s : String),
      userSafe { u with password := p, salt := s } = userSafe u) ∧
    (∀ (hashPw : String → String → String) (salt token : String) (now : Nat) (db : DB)
        (name email password : String) (su : SafeUser),
      (register hashPw salt token now db name email password).1.user = some su →
      ∃ u ∈ ((register hashPw salt token now db name email password).2).users,
        su = userSafe u) ∧
    (∀ (hashPw : String → String → String) (newToken : String) (db : DB)
        (email password : String) (su : SafeUser),
      (login hashPw newToken db email password).1.user = some su →
      ∃ u ∈ ((login hashPw newToken db email password).2).users, su = userSafe u) ∧
    (∀ (db : DB) (token : String) (su : SafeUser),
      (me db token).user = some su → ∃ u ∈ db.users, su = userSafe u) := by
  refine ⟨fun u p s => rfl, ?_, ?_, ?_⟩
  · intro hashPw salt token now db name email password su hsu
    by_cases hmiss : name = "" ∨ email = "" ∨ password = ""
    · simp [register, hmiss, authFail] at hsu
    · by_cases hex : (db.users.find? (fun u => u.email.toLower == email.toLower)).isSome
      · simp [register, hmiss, hex, authFail] at hsu
      · simp only [register, if_neg hmiss, if_neg hex, Option.some.injEq] at hsu
        subst hsu
        refine ⟨_, ?_, rfl⟩
        simp only [register, if_neg hmiss, if_neg hex]
        exact List.mem_append_right _ (List.mem_singleton_self _)
  · intro hashPw newToken db email password su hsu
    by_cases hmiss : email = "" ∨ password = ""
    · simp [login, hmiss, authFail] at hsu
    · cases hfind : jsFindGet (fun u => u.email.toLower == email.toLower) db.users with
      | none => simp [login, hmiss, hfind, authFail] at hsu
      | some iu =>
        obtain ⟨i, u⟩ := iu
        by_cases hpw : hashPw password u.salt = u.password
        · simp only [login, if_neg hmiss, hfind, if_pos hpw, Option.some.injEq] at hsu
          subst hsu
          refine ⟨{ u with token := newToken }, ?_, rfl⟩
          simp only [login, if_neg hmiss, hfind, if_pos hpw]
          have hget := (jsFindGet_some_spec hfind).1
          have := get?_set_self hget { u with token := newToken }
          exact List.get?_mem this
        · simp [login, hmiss, hfind, hpw, authFail] at hsu
  · intro db token su hsu
    by_cases hmiss : token = ""
    · simp [me, hmiss, authFail] at hsu
    · cases hfind : db.users.find? (fun u => u.token == token) with
      | none => simp [me, hmiss, hfind, authFail] at hsu
      | some u =>
        simp only [me, if_neg hmiss, hfind, Option.some.injEq] at hsu
        subst hsu
        exact ⟨u, List.mem_of_find?_eq_some hfind, rfl⟩

/-- Witness for C10 at concrete inputs: the user object returned by `me` for
the stored fixture user is its safe projection. -/
theorem C10_no_credential_leak_witness :
    ∃ u ∈ db1.users, userSafe user0 = userSafe u :=
  C10_no_credential_leak.2.2.2 db1 "tok" (userSafe user0) rfl

/-- C1: for every VerifyPayment call (with the three gateway fields present
and the secret configured), the returned `verified` is true exactly when the
supplied signature equals the HMAC of `orderId|paymentId` under the secret —
in both verify variants — and a supplied signature differing from the correct
one in one character yields `verified = false` with the matched order's
status set to payment_failed. -/
theorem C1_signature_determines_verified (hmac : String → String → String)
    (secret : String) (now : Nat) (db : DB) (oid pid sig : String)
    (receipt : Option String)
    (hoid : oid ≠ "") (hpid : pid ≠ "") (hsig : sig ≠ "") (hsec : secret ≠ "") :
    ((verifyPaymentA hmac secret now db oid pid sig receipt).1.verified = true
      ↔ sig = hmac secret (oid ++ "|" ++ pid)) ∧
    ((verifyPaymentB hmac secret db oid pid sig receipt).1.verified = true
      ↔ sig = hmac secret (oid ++ "|" ++ pid)) ∧
    (oneCharDiff sig (hmac secret (oid ++ "|" ++ pid)) →
      (verifyPaymentA hmac secret now db oid pid sig receipt).1.verified = false ∧
      (verifyPaymentB hmac secret db oid pid sig receipt).1.verified = false ∧
      (∀ i o, jsFindGet (vMatchA oid receipt) db.orders = some (i, o) →
        (verifyPaymentA hmac secret now db oid pid sig receipt).2.orders.get? i
          = some { o with status := "payment_failed" }) ∧
      (∀ i o, jsFindGet (vMatchB oid receipt) db.orders = some (i, o) →
        (verifyPaymentB hmac secret db oid pid sig receipt).2.orders.get? i
          = some { o with status := "payment_failed",
                          razorpay_payment_id := some pid })) := by
  have hcond : ¬(oid = "" ∨ pid = "" ∨ sig = "") := by
    push_neg
    exact ⟨hoid, hpid, hsig⟩
  have hveq : ∀ s' : String, (sigEq (hmac secret (oid ++ "|" ++ pid)) s' = true)
      ↔ s' = hmac secret (oid ++ "|" ++ pid) := by
    intro s'
    unfold sigEq
    rw [beq_iff_eq]
    exact eq_comm
  refine ⟨?_, ?_, ?_⟩
  · cases hfind : jsFindGet (vMatchA oid receipt) db.orders with
    | none =>
      simp only [verifyPaymentA, if_neg hcond, if_neg hsec, hfind]
      exact hveq sig
    | some io =>
      obtain ⟨i, o⟩ := io
      by_cases hv : sigEq (hmac secret (oid ++ "|" ++ pid)) sig = true
      · simp only [verifyPaymentA, if_neg hcond, if_neg hsec, hfind, if_pos hv]
        exact hveq sig
      · simp only [verifyPaymentA, if_neg hcond, if_neg hsec, hfind, if_neg hv]
        exact hveq sig
  · cases hfind : jsFindGet (vMatchB oid receipt) db.orders with
    | none =>
      simp only [verifyPaymentB, hfind]
      exact hveq sig
    | some io =>
      obtain ⟨i, o⟩ := io
      simp only [verifyPaymentB, hfind]
      exact hveq sig
  · intro hdiff
    have hne : sig ≠ hmac secret (oid ++ "|" ++ pid) := ne_of_oneCharDiff hdiff
    have hv : sigEq (hmac secret (oid ++ "|" ++ pid)) sig = false := by
      rw [Bool.eq_false_iff]
      intro hc
      exact hne ((hveq sig).mp hc)
    refine ⟨?_, ?_, ?_, ?_⟩
    · cases hfind : jsFindGet (vMatchA oid receipt) db.orders with
      | none => simp only [verifyPaymentA, if_neg hcond, if_neg hsec, hfind, hv]
      | some io =>
        obtain ⟨i, o⟩ := io
        simp only [verifyPaymentA, if_neg hcond, if_neg hsec, hfind, hv,
          Bool.false_eq_true, if_false]
    · cases hfind : jsFindGet (vMatchB oid receipt) db.orders with
      | none => simp only [verifyPaymentB, hfind, hv]
      | some io =>
        obtain ⟨i, o⟩ := io
        simp only [verifyPaymentB, hfind, hv]
    · intro i o hfind
      have hget := (jsFindGet_some_spec hfind).1
      simp only [verifyPaymentA, if_neg hcond, if_neg hsec, hfind, hv,
        Bool.false_eq_true, if_false]
      exact get?_set_self hget _
    · intro i o hfind
      have hget := (jsFindGet_some_spec hfind).1
      simp only [verifyPaymentB, hfind, hv, Bool.false_eq_true, if_false]
      exact get?_set_self hget _

/-- Witness for C1 at concrete inputs: a valid signature verifies, and the
same signature with its first character flipped is rejected. -/
theorem C1_signature_determines_verified_witness :
    ((verifyPaymentA hmac0 "secret" 9 db0 "order_abc" "pay_123"
        (hmac0 "secret" "order_abc|pay_123") (some "r1")).1.verified = true
      ↔ hmac0 "secret" "order_abc|pay_123" = hmac0 "secret" "order_abc|pay_123") ∧
    ((verifyPaymentA hmac0 "secret" 9 db0 "order_abc" "pay_123"
        "Sig.order_abc|pay_123" (some "r1")).1.verified = true
      ↔ ("Sig.order_abc|pay_123" : String) = hmac0 "secret" "order_abc|pay_123") :=
  ⟨(C1_signature_determines_verified hmac0 "secret" 9 db0 "order_abc" "pay_123"
      (hmac0 "secret" "order_abc|pay_123") (some "r1") (by decide) (by decide)
      (by decide) (by decide)).1,
   (C1_signature_determines_verified hmac0 "secret" 9 db0 "order_abc" "pay_123"
      "Sig.order_abc|pay_123" (some "r1") (by decide) (by decide)
      (by decide) (by decide)).1⟩

/-- C2: the order VerifyPayment selects for transition is the first order in
insertion order whose gatewayOrderId equals the supplied id or whose receipt
equals the supplied receipt; when none matches, the store is unchanged, the
response order is null (with index -1), and the response still carries the
verification boolean computed from the signature math. -/
theorem C2_lookup_first_match (hmac : String → String → String) (secret : String)
    (now : Nat) (db : DB) (oid pid sig : String) (receipt : Option String)
    (hoid : oid ≠ "") (hpid : pid ≠ "") (hsig : sig ≠ "") (hsec : secret ≠ "") :
    (∀ i o, jsFindGet (vMatchA oid receipt) db.orders = some (i, o) →
      db.orders.get? i = some o ∧ vMatchA oid receipt o = true ∧
      (∀ j b, j < i → db.orders.get? j = some b → vMatchA oid receipt b = false) ∧
      (verifyPaymentA hmac secret now db oid pid sig receipt).1.order_index
        = some (Int.ofNat i)) ∧
    (jsFindGet (vMatchA oid receipt) db.orders = none →
      (verifyPaymentA hmac secret now db oid pid sig receipt).2 = db ∧
      (verifyPaymentA hmac secret now db oid pid sig receipt).1.order = none ∧
      (verifyPaymentA hmac secret now db oid pid sig receipt).1.order_index
        = some (-1) ∧
      ((verifyPaymentA hmac secret now db oid pid sig receipt).1.verified = true
        ↔ sig = hmac secret (oid ++ "|" ++ pid))) := by
  have hcond : ¬(oid = "" ∨ pid = "" ∨ sig = "") := by
    push_neg
    exact ⟨hoid, hpid, hsig⟩
  have hveq : (sigEq (hmac secret (oid ++ "|" ++ pid)) sig = true)
      ↔ sig = hmac secret (oid ++ "|" ++ pid) := by
    unfold sigEq
    rw [beq_iff_eq]
    exact eq_comm
  constructor
  · intro i o hfind
    obtain ⟨hget, hp⟩ := jsFindGet_some_spec hfind
    refine ⟨hget, hp, jsFindGet_some_first hfind, ?_⟩
    by_cases hv : sigEq (hmac secret (oid ++ "|" ++ pid)) sig = true
    · simp only [verifyPaymentA, if_neg hcond, if_neg hsec, hfind, if_pos hv]
    · simp only [verifyPaymentA, if_neg hcond, if_neg hsec, hfind, if_neg hv]
  · intro hfind
    refine ⟨?_, ?_, ?_, ?_⟩ <;>
      simp only [verifyPaymentA, if_neg hcond, if_neg hsec, hfind]
    exact hveq

/-- Witness for C2 at concrete inputs: a lookup that misses leaves the store
unchanged and still reports the verification boolean. -/
theorem C2_lookup_first_match_witness :
    (verifyPaymentA hmac0 "secret" 9 db0 "order_zzz" "pay_123" "bad" none).2 = db0 ∧
    (verifyPaymentA hmac0 "secret" 9 db0 "order_zzz" "pay_123" "bad" none).1.order
      = none :=
  ⟨((C2_lookup_first_match hmac0 "secret" 9 db0 "order_zzz" "pay_123" "bad" none
      (by decide) (by decide) (by decide) (by decide)).2 (by decide)).1,
   ((C2_lookup_first_match hmac0 "secret" 9 db0 "order_zzz" "pay_123" "bad" none
      (by decide) (by decide) (by decide) (by decide)).2 (by decide)).2.1⟩

/-- Paid-order invariant of the server.js / CommonJS-fix variant: a paid
order carries a payment id, and a signature that is the HMAC under the secret
of some gateway order id paired with that stored payment id. -/
def InvPaidA (hmac : String → String → String) (secret : String) (db : DB) : Prop :=
  ∀ o ∈ db.orders, o.status = "paid" →
    ∃ oid pid, o.razorpay_payment_id = some pid ∧
      o.razorpay_signature = some (hmac secret (oid ++ "|" ++ pid))

/-- C3 counterexample: in the auth-enabled variant a FAILED verification
still writes gatewayPaymentId to the matched (non-paid) order — the fields
are not populated only after successful verification — and the variant never
writes gatewaySignature at all. -/
theorem C3_counterexample :
    (verifyPaymentB hmac0 "secret" db0 "order_abc" "pay_123" "bad" none).1.verified
      = false ∧
    ((verifyPaymentB hmac0 "secret" db0 "order_abc" "pay_123" "bad" none).2.orders.map
        (fun o => (o.status, o.razorpay_payment_id, o.razorpay_signature)))
      = [("payment_failed", some "pay_123", none)] := by
  constructor <;> decide

/-- C3 amended: in the server.js / CommonJS-fix variant the invariant holds:
CreateOrder and VerifyPayment preserve the paid-order invariant (paid orders
carry a payment id and an HMAC-consistent signature), and a VerifyPayment
whose signature does not verify writes neither gatewayPaymentId nor
gatewaySignature to any order; the auth-enabled variant violates the claim as
stated (see the counterexample). -/
theorem C3_amended (hmac : String → String → String) (secret : String) :
    (∀ keyId gw now db amount cur receipt cart cust,
      InvPaidA hmac secret db →
      InvPaidA hmac secret
        (createOrderA keyId gw now db amount cur receipt cart cust).2) ∧
    (∀ now db oid pid sig receipt,
      InvPaidA hmac secret db →
      InvPaidA hmac secret (verifyPaymentA hmac secret now db oid pid sig receipt).2) ∧
    (∀ now db oid pid sig receipt, sig ≠ hmac secret (oid ++ "|" ++ pid) →
      ((verifyPaymentA hmac secret now db oid pid sig receipt).2).orders.map
          (fun o => (o.razorpay_payment_id, o.razorpay_signature))
        = db.orders.map (fun o => (o.razorpay_payment_id, o.razorpay_signature))) := by
  refine ⟨?_, ?_, ?_⟩
  · intro keyId gw now db amount cur receipt cart cust hInv
    by_cases hc : truthyRat amount = false ∨ truthyStr receipt = false
    · simpa [createOrderA, hc] using hInv
    · cases gw with
      | error e => simpa [createOrderA, hc] using hInv
      | ok order =>
        intro o ho hpaid
        simp only [createOrderA, if_neg hc] at ho
        rcases List.mem_append.mp ho with h | h
        · exact hInv o h hpaid
        · simp only [List.mem_singleton] at h
          subst h
          simp at hpaid
  · intro now db oid pid sig receipt hInv
    by_cases hcond : oid = "" ∨ pid = "" ∨ sig = ""
    · simpa [verifyPaymentA, hcond] using hInv
    · by_cases hs : secret = ""
      · simpa [verifyPaymentA, hcond, hs] using hInv
      · cases hfind : jsFindGet (vMatchA oid receipt) db.orders with
        | none => simpa [verifyPaymentA, hcond, hs, hfind] using hInv
        | some io =>
          obtain ⟨i, o⟩ := io
          by_cases hv : sigEq (hmac secret (oid ++ "|" ++ pid)) sig = true
          · intro o' ho' hpaid
            simp only [verifyPaymentA, if_neg hcond, if_neg hs, hfind, if_pos hv] at ho'
            rcases mem_set_cases ho' with rfl | h
            · have hsg : hmac secret (oid ++ "|" ++ pid) = sig := by
                have := hv
                unfold sigEq at this
                exact beq_iff_eq.mp this
              exact ⟨oid, pid, rfl, by rw [← hsg]⟩
            · exact hInv o' h hpaid
          · intro o' ho' hpaid
            simp only [verifyPaymentA, if_neg hcond, if_neg hs, hfind, if_neg hv] at ho'
            rcases mem_set_cases ho' with rfl | h
            · simp at hpaid
            · exact hInv o' h hpaid
  · intro now db oid pid sig receipt hne
    have hv : ¬(sigEq (hmac secret (oid ++ "|" ++ pid)) sig = true) := by
      unfold sigEq
      rw [beq_iff_eq]
      exact fun h => hne h.symm
    by_cases hcond : oid = "" ∨ pid = "" ∨ sig = ""
    · simp [verifyPaymentA, hcond]
    · by_cases hs : secret = ""
      · simp [verifyPaymentA, hcond, hs]
      · cases hfind : jsFindGet (vMatchA oid receipt) db.orders with
        | none => simp [verifyPaymentA, hcond, hs, hfind]
        | some io =>
          obtain ⟨i, o⟩ := io
          simp only [verifyPaymentA, if_neg hcond, if_neg hs, hfind, if_neg hv]
          rw [map_set]
          have hget := (jsFindGet_some_spec hfind).1
          have hmget : (db.orders.map
              (fun o => (o.razorpay_payment_id, o.razorpay_signature))).get? i
              = some (o.razorpay_payment_id, o.razorpay_signature) := by
            rw [List.get?_map, hget]
            rfl
          exact set_of_get?_eq hmget

/-- Witness for C3 (amended) at concrete inputs: a failed verification leaves
the payment-id and signature columns of the store untouched. -/
theorem C3_amended_witness :
    ((verifyPaymentA hmac0 "secret" 9 db0 "order_abc" "pay_123" "bad" none).2).orders.map
        (fun o => (o.razorpay_payment_id, o.razorpay_signature))
      = db0.orders.map (fun o => (o.razorpay_payment_id, o.razorpay_signature)) :=
  (C3_amended hmac0 "secret").2.2 9 db0 "order_abc" "pay_123" "bad" none (by decide)

/-- Update applied by the verify handler to a matched order on successful
verification. -/
def paidUpdate (o : Order) (pid sig : String) (t : Nat) : Order :=
  { o with status := "paid", razorpay_payment_id := some pid,
           razorpay_signature := some sig, paid_at := some t }

/-- C4: VerifyPayment (server.js / CommonJS fix) is idempotent on success:
with a verifying signature and a matching order, a second call with identical
arguments again answers verified with HTTP 200, reports the order as paid
both times, and leaves the stored status, payment id and signature of every
order exactly as after the first call (only the paidAt timestamp is
refreshed). -/
theorem C4_idempotent (hmac : String → String → String) (secret : String)
    (now1 now2 : Nat) (db : DB) (oid pid sig : String) (receipt : Option String)
    (hoid : oid ≠ "") (hpid : pid ≠ "") (hsig : sig ≠ "") (hsec : secret ≠ "")
    (hver : sig = hmac secret (oid ++ "|" ++ pid))
    (i : Nat) (o : Order)
    (hfind : jsFindGet (vMatchA oid receipt) db.orders = some (i, o)) :
    (verifyPaymentA hmac secret now1 db oid pid sig receipt).1.verified = true ∧
    (verifyPaymentA hmac secret now2
        (verifyPaymentA hmac secret now1 db oid pid sig receipt).2
        oid pid sig receipt).1.verified = true ∧
    (verifyPaymentA hmac secret now2
        (verifyPaymentA hmac secret now1 db oid pid sig receipt).2
        oid pid sig receipt).1.httpStatus = 200 ∧
    (∃ o1,
      (verifyPaymentA hmac secret now1 db oid pid sig receipt).1.order = some o1 ∧
      o1.status = "paid" ∧ o1.razorpay_payment_id = some pid ∧
      o1.razorpay_signature = some sig ∧
      (verifyPaymentA hmac secret now2
          (verifyPaymentA hmac secret now1 db oid pid sig receipt).2
          oid pid sig receipt).1.order = some { o1 with paid_at := some now2 }) ∧
    ((verifyPaymentA hmac secret now2
        (verifyPaymentA hmac secret now1 db oid pid sig receipt).2
        oid pid sig receipt).2.orders.map
          (fun x => (x.status, x.razorpay_payment_id, x.razorpay_signature)))
      = ((verifyPaymentA hmac secret now1 db oid pid sig receipt).2.orders.map
          (fun x => (x.status, x.razorpay_payment_id, x.razorpay_signature))) := by
  have hcond : ¬(oid = "" ∨ pid = "" ∨ sig = "") := by
    push_neg
    exact ⟨hoid, hpid, hsig⟩
  have hv : sigEq (hmac secret (oid ++ "|" ++ pid)) sig = true := by
    unfold sigEq
    rw [beq_iff_eq]
    exact hver.symm
  have h1 : verifyPaymentA hmac secret now1 db oid pid sig receipt
      = ({ httpStatus := 200, verified := true, order_index := some (Int.ofNat i),
           order := some (paidUpdate o pid sig now1), reason := none },
         { db with orders := db.orders.set i (paidUpdate o pid sig now1) }) := by
    simp only [verifyPaymentA, if_neg hcond, if_neg hsec, hfind]
    rw [if_pos hv, hv]
    exact rfl
  have hp1 : vMatchA oid receipt (paidUpdate o pid sig now1) = true :=
    (jsFindGet_some_spec hfind).2
  have hfind2 : jsFindGet (vMatchA oid receipt)
      (db.orders.set i (paidUpdate o pid sig now1))
      = some (i, paidUpdate o pid sig now1) :=
    jsFindGet_set hfind _ hp1
  have h2 : verifyPaymentA hmac secret now2
      (verifyPaymentA hmac secret now1 db oid pid sig receipt).2 oid pid sig receipt
      = ({ httpStatus := 200, verified := true, order_index := some (Int.ofNat i),
           order := some (paidUpdate o pid sig now2), reason := none },
         { db with orders := ((db.orders.set i (paidUpdate o pid sig now1)).set i (paidUpdate o pid sig now2)) }) := by
    rw [h1]
    simp only [verifyPaymentA, if_neg hcond, if_neg hsec, hfind2]
    rw [if_pos hv, hv]
    exact rfl
  have hmap : ((db.orders.set i (paidUpdate o pid sig now1)).set i (paidUpdate o pid sig now2)).map
          (fun x => (x.status, x.razorpay_payment_id, x.razorpay_signature))
      = (db.orders.set i (paidUpdate o pid sig now1)).map
          (fun x => (x.status, x.razorpay_payment_id, x.razorpay_signature)) := by
    rw [set_set_same, map_set, map_set]
    exact rfl
  refine ⟨?_, ?_, ?_, ?_, ?_⟩
  · rw [h1]
  · rw [h2]
  · rw [h2]
  · refine ⟨paidUpdate o pid sig now1, ?_, rfl, rfl, rfl, ?_⟩
    · rw [h1]
    · rw [h2]
      exact rfl
  · rw [h2, h1]
    exact hmap

/-- Witness for C4 at concrete inputs: both the first and the repeated
verification of the fixture order answer verified. -/
theorem C4_idempotent_witness :
    (verifyPaymentA hmac0 "secret" 1 db0 "order_abc" "pay_123"
        (hmac0 "secret" "order_abc|pay_123") none).1.verified = true ∧
    (verifyPaymentA hmac0 "secret" 2
        (verifyPaymentA hmac0 "secret" 1 db0 "order_abc" "pay_123"
          (hmac0 "secret" "order_abc|pay_123") none).2
        "order_abc" "pay_123" (hmac0 "secret" "order_abc|pay_123") none).1.verified
      = true :=
  ⟨(C4_idempotent hmac0 "secret" 1 2 db0 "order_abc" "pay_123"
      (hmac0 "secret" "order_abc|pay_123") none (by decide) (by decide) (by decide)
      (by decide) rfl 0 ord0 (by decide)).1,
   (C4_idempotent hmac0 "secret" 1 2 db0 "order_abc" "pay_123"
      (hmac0 "secret" "order_abc|pay_123") none (by decide) (by decide) (by decide)
      (by decide) rfl 0 ord0 (by decide)).2.1⟩

end Indiyummm
